import Mathlib

/-!
# Verification of the hybrid retrieval fusion engine (`rag_app`)

Shallow embedding of the retrieval core of the repository:
`src/retriever/query_retriever.py` (query expansion, dense/lexical fan-out,
reciprocal rank fusion, assembly) and the call site in
`src/generation/generate_answer.py`.

Modelling conventions:
* Python floats are modelled as `ℚ` (the RRF scores `1.0 / (k + rank)` are
  exact rationals; no rounding behaviour is claimed by the spec).
* Python `dict` preserves insertion order (a CPython ≥ 3.7 language
  guarantee), so the fusion-score dictionary is modelled as an association
  list in insertion order (`dict_get` / `dict_set`).
* `sorted(..., key=..., reverse=True)` is a stable sort placing larger keys
  first; it is modelled by the stable insertion sort `sort_desc`.
* Fallible backend calls (FAISS similarity search, the OpenAI client, the
  Whoosh BM25 search) are modelled as `Except Unit` valued functions carried
  by an environment record; raising an exception is `Except.error`.
* The seed-dependent Python builtin `hash` is a parameter `pyHash` of the
  environment: one concrete function per process run.
* Python values that may be a `str` or an `int` at the same call site
  (the `bm25_dir` argument of `retrieve_docs`, which `generate_answer`
  fills with the integer `k`) are modelled by `PyVal`.
-/

namespace RagApp

/-- A LangChain `Document` as the retriever sees it: `metadata.get("doc_id")`
and `metadata.get("source")` may be absent, `page_content` is a string. -/
structure Document where
  doc_id : Option String
  source : Option String
  page_content : String
deriving DecidableEq, Repr

/-- A Python value that is either a string or an integer (dynamic typing of
the `bm25_dir` argument). -/
inductive PyVal where
  | str (s : String)
  | int (n : Int)
deriving DecidableEq, Repr

/-- The FAISS vectorstore: `similarity_search_with_score` and the plain
`similarity_search`, both of which may raise. -/
structure VectorStore where
  similarity_search_with_score : String → Nat → Except Unit (List (Document × ℚ))
  similarity_search : String → Nat → Except Unit (List Document)

/-- The OpenAI client as used by `_generate_rewrites_openai`: the content of
the paraphrase response and of the HyDE response, either call may raise. -/
structure OpenAIClient where
  paraphrase_response : String → Nat → Except Unit String
  hyde_response : String → Except Unit String

/-- The process environment of `retriever/query_retriever.py`: the loaded
vectorstore per path, the OpenAI client, the `HAS_BM25` import flag,
`os.path.isdir`, `search_bm25`, and the process instance of the Python
builtin `hash` on strings. -/
structure Env where
  loadVS : String → VectorStore
  client : OpenAIClient
  hasBM25 : Bool
  isdir : PyVal → Bool
  search_bm25 : String → PyVal → Nat → Except Unit (List (Document × ℚ))
  pyHash : String → Int

-- ----- knobs (module constants of query_retriever.py) -----

def DENSE_TOP_K : Nat := 60
def BM25_TOP_K : Nat := 60
def RRF_K : ℚ := 60
def FINAL_TOP_K : Nat := 5
def USE_MULTI_QUERY : Bool := true
def N_REWRITES : Nat := 3
def USE_HYDE : Bool := true
def BM25_DIR : PyVal := PyVal.str "vectorstores/bm25_index"

-- ----- small Python string helpers used by the expander -----

/-- Characters that a bare Python `str.strip()` removes (the ASCII whitespace
actually occurring in chat-completion output). -/
def pyWhitespace : List Char := [' ', '\t', '\n', '\r', '\x0b', '\x0c']

/-- `str.strip(chars)` on an explicit character set. -/
def stripChars (cs : List Char) (s : String) : String :=
  let l := (s.toList.dropWhile (· ∈ cs)).reverse.dropWhile (· ∈ cs)
  String.mk l.reverse

/-- Bare `str.strip()`. -/
def stripWS (s : String) : String := stripChars pyWhitespace s

/-- `str.splitlines()` restricted to `\n` separators: like `splitOn "\n"`
but without the trailing empty piece and with `"" ↦ []`. -/
def splitlines (s : String) : List String :=
  if s = "" then []
  else
    let parts := s.splitOn "\n"
    if parts.getLast? = some "" then parts.dropLast else parts

-- ----- 4. `_dense_search` -----

/-- `_dense_search(vs, q, k)`: try `similarity_search_with_score`; if it
raises, fall back to `similarity_search` with scores `0.0`; a failure of the
fallback propagates. -/
def dense_search (vs : VectorStore) (q : String) (k : Nat) :
    Except Unit (List (Document × ℚ)) :=
  match vs.similarity_search_with_score q k with
  | .ok r => .ok r
  | .error _ =>
      match vs.similarity_search q k with
      | .ok docs => .ok (docs.map (fun d => (d, 0)))
      | .error e => .error e

-- ----- 5. `_generate_rewrites_openai` -----

/-- `_generate_rewrites_openai(query, n, hyde)`: ask for `n` paraphrases
(one per line), clean and de-duplicate them, optionally append a HyDE
mini-answer, and prepend the original query. Either OpenAI call may raise
and the exception propagates to the calling code. -/
def generate_rewrites_openai (client : OpenAIClient) (query : String)
    (n : Nat) (hyde : Bool) : Except Unit (List String) := do
  let content ← client.paraphrase_response query n
  let rewrites :=
    ((splitlines content).filter (fun ln => stripWS ln ≠ "")).map
      (fun ln => stripWS (stripChars ['-', ' '] ln))
  let rewrites := rewrites.filter (fun r => r ≠ "" ∧ r.toLower ≠ query.toLower)
  let rewrites := rewrites.take n
  if hyde then do
    let h ← client.hyde_response query
    pure (query :: (rewrites ++ [stripWS h]))
  else
    pure (query :: rewrites)

-- ----- 6. `_rrf_fuse` -----

/-- `scores.get(doc_id, 0.0)` on the insertion-ordered dictionary: the
value of the (unique) entry with this key, `0.0` when absent. -/
def dict_get : List (String × ℚ) → String → ℚ
  | [], _ => 0
  | p :: t, key => if p.1 = key then p.2 else dict_get t key

/-- `scores[doc_id] = v`: update in place if the key is present, else
append (Python dicts keep first-insertion order on re-assignment; keys are
unique, so replacing the first match is dict assignment). -/
def dict_set : List (String × ℚ) → String → ℚ → List (String × ℚ)
  | [], key, v => [(key, v)]
  | p :: t, key, v => if p.1 = key then (key, v) :: t else p :: dict_set t key v

/-- The inner loop of `_rrf_fuse`: `for rank, doc_id in enumerate(lst,
start=1): scores[doc_id] = scores.get(doc_id, 0.0) + 1.0 / (k + rank)`,
written with the running rank made explicit. -/
def rrf_list (k : ℚ) (scores : List (String × ℚ)) (rank : Nat) :
    List String → List (String × ℚ)
  | [] => scores
  | doc_id :: rest =>
      rrf_list k (dict_set scores doc_id (dict_get scores doc_id + 1 / (k + rank)))
        (rank + 1) rest

/-- `_rrf_fuse(ranked_lists, k)`: fold the RRF contribution of every list,
starting from the empty dictionary. -/
def rrf_fuse (ranked_lists : List (List String)) (k : ℚ) :
    List (String × ℚ) :=
  ranked_lists.foldl (fun scores lst => rrf_list k scores 1 lst) []

-- ----- 7. `retrieve_docs` -----

/-- The document bank `doc_bank : Dict[str, Document]`, insertion-ordered. -/
abbrev Bank := List (String × Document)

/-- `doc_id not in doc_bank` guard followed by `doc_bank[doc_id] = d`:
first writer wins (an existing entry is kept, a new key is appended). -/
def bank_insert : Bank → String → Document → Bank
  | [], id, d => [(id, d)]
  | p :: t, id, d => if p.1 = id then p :: t else p :: bank_insert t id d

/-- `doc_bank[i]` as a partial lookup. -/
def bank_find? : Bank → String → Option Document
  | [], _ => none
  | p :: t, id => if p.1 = id then some p.2 else bank_find? t id

/-- The id derivation of `retrieve_docs`: `metadata.get("doc_id")` when
present and truthy (non-empty), else the fallback f-string joining
`metadata.get("source", "")` and `hash(page_content)` with a dash. -/
def doc_key (pyHash : String → Int) (d : Document) : String :=
  let fallback := (d.source.getD "") ++ "-" ++ toString (pyHash d.page_content)
  match d.doc_id with
  | some s => if s = "" then fallback else s
  | none => fallback

/-- The body of the accumulation loop shared by steps 4.2 and 4.3 of
`retrieve_docs`, with the loop state (bank, id list so far) explicit. -/
def accum_go (pyHash : String → Int) (acc : Bank × List String) :
    List (Document × ℚ) → Bank × List String
  | [] => acc
  | h :: rest =>
      let doc_id := doc_key pyHash h.1
      accum_go pyHash (bank_insert acc.1 doc_id h.1, acc.2 ++ [doc_id]) rest

/-- The accumulation loop shared by steps 4.2 and 4.3 of `retrieve_docs`:
derive the id of each hit, append it to the ranked-id list, and cache the
document in the bank when its id is new. -/
def accum_hits (pyHash : String → Int) (bank : Bank)
    (hits : List (Document × ℚ)) : Bank × List String :=
  accum_go pyHash (bank, []) hits

/-- One iteration of the step-4 loop of `retrieve_docs` for a single query
variant: the mandatory dense search (whose failure propagates), then the
optional BM25 search (whose failure is swallowed by `except: pass`). -/
def fanout_step (env : Env) (vs : VectorStore) (bm25_dir : PyVal)
    (acc : Bank × List (List String)) (q : String) :
    Except Unit (Bank × List (List String)) := do
  let dense_hits ← dense_search vs q DENSE_TOP_K
  let br := accum_hits env.pyHash acc.1 dense_hits
  let lists := acc.2 ++ [br.2]
  if env.hasBM25 && env.isdir bm25_dir then
    match env.search_bm25 q bm25_dir BM25_TOP_K with
    | .ok lex_hits =>
        let br2 := accum_hits env.pyHash br.1 lex_hits
        pure (br2.1, lists ++ [br2.2])
    | .error _ => pure (br.1, lists)
  else
    pure (br.1, lists)

/-- The step-4 loop of `retrieve_docs` with the loop state explicit. -/
def fanout_go (env : Env) (vs : VectorStore) (bm25_dir : PyVal)
    (acc : Bank × List (List String)) :
    List String → Except Unit (Bank × List (List String))
  | [] => .ok acc
  | q :: rest => do
      let acc2 ← fanout_step env vs bm25_dir acc q
      fanout_go env vs bm25_dir acc2 rest

/-- Step 4 of `retrieve_docs`: run the per-variant fan-out over all query
variants, accumulating the bank and the ranked id lists. -/
def fanout (env : Env) (vs : VectorStore) (bm25_dir : PyVal)
    (queries : List String) : Except Unit (Bank × List (List String)) :=
  fanout_go env vs bm25_dir ([], []) queries

/-- Stable insertion of one `(id, score)` entry in front of the first entry
whose score is `≤` its own. -/
def insert_desc (p : String × ℚ) : List (String × ℚ) → List (String × ℚ)
  | [] => [p]
  | q :: rest => if q.2 ≤ p.2 then p :: q :: rest else q :: insert_desc p rest

/-- `sorted(fused.items(), key=lambda kv: kv[1], reverse=True)`: a stable
sort placing higher scores first and keeping equal scores in dictionary
(insertion) order. -/
def sort_desc : List (String × ℚ) → List (String × ℚ)
  | [] => []
  | p :: rest => insert_desc p (sort_desc rest)

/-- The comprehension `[doc_bank[i] for i in top_ids]`: a missing key
(`KeyError`) is modelled as `Except.error`. -/
def bank_lookups (bank : Bank) : List String → Except Unit (List Document)
  | [] => .ok []
  | i :: rest =>
      match bank_find? bank i with
      | some d => do
          let ds ← bank_lookups bank rest
          pure (d :: ds)
      | none => .error ()

/-- Steps 6-8 of `retrieve_docs` (the fusion path): fuse, sort descending,
keep the first `max k 30` ids, map each through the bank, and truncate to
`k`. -/
def fusion_assemble (bank : Bank) (ranked_lists : List (List String))
    (k : Nat) : Except Unit (List Document) := do
  let fused := rrf_fuse ranked_lists RRF_K
  let top_ids := ((sort_desc fused).map Prod.fst).take (max k 30)
  let top_docs ← bank_lookups bank top_ids
  pure (top_docs.take k)

/-- Steps 5-8 of `retrieve_docs`: the dense-only fallback when no ranked
list accumulated, else the fusion path. -/
def assemble (vs : VectorStore) (query : String) (k : Nat) (bank : Bank)
    (ranked_lists : List (List String)) : Except Unit (List Document) :=
  if ranked_lists.isEmpty then do
    let dense_hits ← dense_search vs query DENSE_TOP_K
    pure ((dense_hits.take k).map Prod.fst)
  else
    fusion_assemble bank ranked_lists k

/-- Step 2 of `retrieve_docs`: the query-variant set; any exception of the
expander is swallowed and the original query alone is used. -/
def queries_used (env : Env) (query : String) : List String :=
  if USE_MULTI_QUERY then
    match generate_rewrites_openai env.client query N_REWRITES USE_HYDE with
    | .ok qs => qs
    | .error _ => [query]
  else
    [query]

/-- `retrieve_docs(query, persist_path, bm25_dir, k)`. -/
def retrieve_docs (env : Env) (query : String) (persist_path : String)
    (bm25_dir : PyVal) (k : Nat) : Except Unit (List Document) := do
  let vs := env.loadVS persist_path
  let queries := queries_used env query
  let br ← fanout env vs bm25_dir queries
  assemble vs query k br.1 br.2

-- ----- the retrieval call of `generate_answer` -----

/-- The retrieval call of `generate_answer(query, persist_path, k, model)`:
the source line is `retrieve_docs(query, persist_path, k)`, so Python binds
the `k` of the caller positionally to the third parameter `bm25_dir`, leaving
the fourth parameter `k` at its default `FINAL_TOP_K`. -/
def generate_answer_retrieve (env : Env) (query persist_path : String)
    (k : Int) : Except Unit (List Document) :=
  retrieve_docs env query persist_path (PyVal.int k) FINAL_TOP_K

-- ----- spec-side auxiliary definitions -----

/-- The RRF contribution an id collects from one list whose first element
carries rank `r`: `1 / (k + rank)` summed over every occurrence. -/
def occSum (k : ℚ) (id : String) : Nat → List String → ℚ
  | _, [] => 0
  | r, x :: t => (if x = id then 1 / (k + r) else 0) + occSum k id (r + 1) t

/-- First-seen de-duplication of a list of ids, continued from `acc`. -/
def first_seen_from (acc : List String) : List String → List String
  | [] => acc
  | x :: t => first_seen_from (if x ∈ acc then acc else acc ++ [x]) t

/-- The ids of a list in first-seen order, each kept once. -/
def first_seen (l : List String) : List String := first_seen_from [] l

-- ----- dictionary lemmas -----

theorem dict_get_set_self (d : List (String × ℚ)) (key : String) (v : ℚ) :
    dict_get (dict_set d key v) key = v := by
  induction d with
  | nil => simp [dict_set, dict_get]
  | cons p t ih =>
      by_cases hp : p.1 = key
      · simp [dict_set, dict_get, hp]
      · simp [dict_set, dict_get, hp, ih]

theorem dict_get_set_ne (d : List (String × ℚ)) (key : String) (v : ℚ)
    (id : String) (hne : id ≠ key) :
    dict_get (dict_set d key v) id = dict_get d id := by
  have hk : ¬ key = id := fun h => hne h.symm
  induction d with
  | nil => simp [dict_set, dict_get, hk]
  | cons p t ih =>
      by_cases hp : p.1 = key
      · have hpid : ¬ p.1 = id := fun h => hne (h.symm.trans hp)
        simp [dict_set, dict_get, hp, hk, hpid]
      · by_cases hpid : p.1 = id
        · simp [dict_set, dict_get, hp, hpid, hne]
        · simp [dict_set, dict_get, hp, hpid, ih]

-- ----- RRF score lemmas -----

theorem rrf_list_score (k : ℚ) (id : String) :
    ∀ (l : List String) (sc : List (String × ℚ)) (r : Nat),
      dict_get (rrf_list k sc r l) id = dict_get sc id + occSum k id r l
  | [], sc, r => by simp [rrf_list, occSum]
  | x :: t, sc, r => by
      simp only [rrf_list, occSum]
      rw [rrf_list_score k id t _ (r + 1)]
      by_cases hx : x = id
      · subst hx
        rw [dict_get_set_self, if_pos rfl]
        ring
      · rw [dict_get_set_ne _ _ _ _ (fun h => hx h.symm)]
        simp only [hx, if_false]
        ring

theorem rrf_fold_score (k : ℚ) (id : String) :
    ∀ (lists : List (List String)) (sc : List (String × ℚ)),
      dict_get (lists.foldl (fun scores lst => rrf_list k scores 1 lst) sc) id
        = dict_get sc id + (lists.map (fun l => occSum k id 1 l)).sum
  | [], sc => by simp
  | l :: rest, sc => by
      simp only [List.foldl_cons, List.map_cons, List.sum_cons]
      rw [rrf_fold_score k id rest _, rrf_list_score]
      ring

/-- The fused score of an id is the sum of its per-list contributions. -/
theorem rrf_fuse_score (lists : List (List String)) (k : ℚ) (id : String) :
    dict_get (rrf_fuse lists k) id = (lists.map (fun l => occSum k id 1 l)).sum := by
  rw [rrf_fuse, rrf_fold_score]
  simp [dict_get]

theorem occSum_of_not_mem (k : ℚ) (id : String) :
    ∀ (l : List String) (r : Nat), id ∉ l → occSum k id r l = 0
  | [], _, _ => rfl
  | x :: t, r, h => by
      simp only [List.mem_cons, not_or] at h
      have hx : ¬ x = id := fun hh => h.1 hh.symm
      simp [occSum, hx, occSum_of_not_mem k id t (r + 1) h.2]

theorem occSum_nodup (k : ℚ) (id : String) :
    ∀ (l : List String) (r : Nat), l.Nodup → id ∈ l →
      occSum k id r l = 1 / (k + (r : ℚ) + (l.indexOf id : ℚ))
  | [], _, _, hmem => by simp at hmem
  | x :: t, r, hnd, hmem => by
      rcases List.nodup_cons.mp hnd with ⟨hxt, hndt⟩
      by_cases hx : x = id
      · subst hx
        have : x ∉ t := hxt
        rw [occSum, occSum_of_not_mem k x t (r + 1) this]
        simp [List.indexOf_cons_self]
      · have hmt : id ∈ t := by
          rcases List.mem_cons.mp hmem with h | h
          · exact absurd h.symm hx
          · exact h
        rw [occSum, occSum_nodup k id t (r + 1) hndt hmt,
          List.indexOf_cons_ne t hx]
        simp only [hx, if_false]
        push_cast
        ring

/-- The fused score of an id over lists without internal duplicates:
`1 / (k + rank)` summed over the lists containing the id, the rank being
1-based. -/
theorem rrf_score_of_nodup (lists : List (List String)) (k : ℚ) (id : String)
    (hnd : ∀ l ∈ lists, l.Nodup) :
    dict_get (rrf_fuse lists k) id
      = ((lists.filter (fun l => id ∈ l)).map
          (fun l => 1 / (k + ((l.indexOf id : ℚ) + 1)))).sum := by
  rw [rrf_fuse_score]
  have hocc : ∀ m ∈ lists, occSum k id 1 m
      = if id ∈ m then 1 / (k + ((m.indexOf id : ℚ) + 1)) else 0 := by
    intro m hm
    by_cases hmem : id ∈ m
    · rw [occSum_nodup k id m 1 (hnd m hm) hmem, if_pos hmem]
      push_cast
      ring_nf
    · rw [occSum_of_not_mem k id m 1 hmem, if_neg hmem]
  rw [List.map_congr_left hocc]
  clear hocc hnd
  induction lists with
  | nil => simp
  | cons l rest ih =>
      by_cases hmem : id ∈ l
      · rw [List.map_cons, List.sum_cons, ih, if_pos hmem,
          List.filter_cons_of_pos (by simpa using hmem), List.map_cons, List.sum_cons]
      · rw [List.map_cons, List.sum_cons, ih, if_neg hmem,
          List.filter_cons_of_neg (by simpa using hmem), zero_add]

/-- C1 (amended): for duplicate-free ranked lists, `_rrf_fuse` assigns each
id the sum, over the lists containing it, of `1 / (k + r)` with `r` its
1-based rank, ids absent from a list contributing 0; on the concrete
scenario dense = [A, B, C], lexical = [B, C, A], `k = 60` the scores are
A = 1/61 + 1/63, B = 1/62 + 1/61, C = 1/63 + 1/62 and the fused descending
order is B, A, C. -/
theorem rrf_fuse_score_spec :
    (∀ (lists : List (List String)) (k : ℚ), (∀ l ∈ lists, l.Nodup) →
      ∀ id, dict_get (rrf_fuse lists k) id
        = ((lists.filter (fun l => id ∈ l)).map
            (fun l => 1 / (k + ((l.indexOf id : ℚ) + 1)))).sum)
    ∧ dict_get (rrf_fuse [["A", "B", "C"], ["B", "C", "A"]] 60) "A" = 1/61 + 1/63
    ∧ dict_get (rrf_fuse [["A", "B", "C"], ["B", "C", "A"]] 60) "B" = 1/62 + 1/61
    ∧ dict_get (rrf_fuse [["A", "B", "C"], ["B", "C", "A"]] 60) "C" = 1/63 + 1/62
    ∧ (sort_desc (rrf_fuse [["A", "B", "C"], ["B", "C", "A"]] 60)).map Prod.fst
        = ["B", "A", "C"] := by
  refine ⟨fun lists k hnd id => rrf_score_of_nodup lists k id hnd, ?_, ?_, ?_, ?_⟩ <;>
    norm_num +decide [rrf_fuse, rrf_list, dict_set, dict_get, sort_desc, insert_desc]

/-- C1, counterexample to the claimed fused order: with dense = [A, B, C],
lexical = [B, C, A] and `k = 60` the fused descending order is B, A, C and
not the claimed B, C, A: A = 1/61 + 1/63 ≈ 0.03227 outranks
C = 1/63 + 1/62 ≈ 0.03200 (the decimal approximations of the spec for A
and C are miscomputed). -/
theorem rrf_scenario_order_counterexample :
    (sort_desc (rrf_fuse [["A", "B", "C"], ["B", "C", "A"]] 60)).map Prod.fst
      ≠ ["B", "C", "A"]
    ∧ (sort_desc (rrf_fuse [["A", "B", "C"], ["B", "C", "A"]] 60)).map Prod.fst
      = ["B", "A", "C"] := by
  constructor <;>
    norm_num +decide [rrf_fuse, rrf_list, dict_set, dict_get, sort_desc, insert_desc]

-- ----- stable-sort lemmas -----

theorem insert_desc_perm (p : String × ℚ) :
    ∀ l : List (String × ℚ), (insert_desc p l).Perm (p :: l)
  | [] => List.Perm.refl _
  | q :: rest => by
      by_cases h : q.2 ≤ p.2
      · simp [insert_desc, h]
      · simp only [insert_desc, h, if_false]
        exact ((insert_desc_perm p rest).cons q).trans (List.Perm.swap p q rest)

theorem sort_desc_perm : ∀ l : List (String × ℚ), (sort_desc l).Perm l
  | [] => List.Perm.refl _
  | p :: rest =>
      (insert_desc_perm p (sort_desc rest)).trans ((sort_desc_perm rest).cons p)

theorem insert_desc_pairwise (p : String × ℚ) :
    ∀ l : List (String × ℚ), l.Pairwise (fun a b => b.2 ≤ a.2) →
      (insert_desc p l).Pairwise (fun a b => b.2 ≤ a.2)
  | [], _ => by simp [insert_desc]
  | q :: rest, h => by
      rcases List.pairwise_cons.mp h with ⟨hq, hrest⟩
      by_cases hle : q.2 ≤ p.2
      · simp only [insert_desc, hle, if_pos]
        refine List.pairwise_cons.mpr ⟨?_, h⟩
        intro b hb
        rcases List.mem_cons.mp hb with rfl | hb2
        · exact hle
        · exact (hq b hb2).trans hle
      · simp only [insert_desc, hle, if_false]
        refine List.pairwise_cons.mpr ⟨?_, insert_desc_pairwise p rest hrest⟩
        intro b hb
        have hmem : b ∈ p :: rest := (insert_desc_perm p rest).mem_iff.mp hb
        rcases List.mem_cons.mp hmem with rfl | hb2
        · exact le_of_not_le hle
        · exact hq b hb2

theorem sort_desc_pairwise : ∀ l : List (String × ℚ),
    (sort_desc l).Pairwise (fun a b => b.2 ≤ a.2)
  | [] => List.Pairwise.nil
  | p :: rest => insert_desc_pairwise p _ (sort_desc_pairwise rest)

theorem insert_desc_filter (p : String × ℚ) (s : ℚ) :
    ∀ l : List (String × ℚ),
      (insert_desc p l).filter (fun q => q.2 = s)
        = if p.2 = s then p :: l.filter (fun q => q.2 = s)
          else l.filter (fun q => q.2 = s)
  | [] => by
      by_cases hp : p.2 = s <;> simp [insert_desc, hp]
  | q :: rest => by
      by_cases hle : q.2 ≤ p.2
      · simp only [insert_desc, hle, if_pos]
        by_cases hp : p.2 = s
        · rw [List.filter_cons_of_pos (by simpa using hp), if_pos hp]
        · rw [List.filter_cons_of_neg (by simpa using hp), if_neg hp]
      · simp only [insert_desc, hle, if_false]
        by_cases hq : q.2 = s
        · by_cases hp : p.2 = s
          · exact absurd (le_of_eq (hq.trans hp.symm)) hle
          · rw [List.filter_cons_of_pos (by simpa using hq),
              List.filter_cons_of_pos (by simpa using hq),
              insert_desc_filter p s rest, if_neg hp, if_neg hp]
        · rw [List.filter_cons_of_neg (by simpa using hq),
            List.filter_cons_of_neg (by simpa using hq),
            insert_desc_filter p s rest]

theorem sort_desc_filter (s : ℚ) : ∀ l : List (String × ℚ),
    (sort_desc l).filter (fun q => q.2 = s) = l.filter (fun q => q.2 = s)
  | [] => rfl
  | p :: rest => by
      rw [sort_desc, insert_desc_filter, sort_desc_filter s rest]
      by_cases hp : p.2 = s
      · rw [if_pos hp, List.filter_cons_of_pos (by simpa using hp)]
      · rw [if_neg hp, List.filter_cons_of_neg (by simpa using hp)]

-- ----- key-order lemmas -----

theorem dict_set_keys (d : List (String × ℚ)) (key : String) (v : ℚ) :
    (dict_set d key v).map Prod.fst
      = if key ∈ d.map Prod.fst then d.map Prod.fst
        else d.map Prod.fst ++ [key] := by
  induction d with
  | nil => simp [dict_set]
  | cons p t ih =>
      by_cases hp : p.1 = key
      · simp [dict_set, hp]
      · have hne : ¬ key = p.1 := fun h => hp h.symm
        by_cases hmem : key ∈ t.map Prod.fst
        · simp [dict_set, hp, hmem, hne, ih]
        · simp [dict_set, hp, hmem, hne, ih]

theorem rrf_list_keys (k : ℚ) :
    ∀ (l : List String) (sc : List (String × ℚ)) (r : Nat),
      (rrf_list k sc r l).map Prod.fst = first_seen_from (sc.map Prod.fst) l
  | [], _, _ => rfl
  | x :: t, sc, r => by
      rw [rrf_list, first_seen_from, rrf_list_keys k t _ (r + 1), dict_set_keys]

theorem first_seen_from_append :
    ∀ (l₁ : List String) (acc l₂ : List String),
      first_seen_from acc (l₁ ++ l₂) = first_seen_from (first_seen_from acc l₁) l₂
  | [], _, _ => rfl
  | x :: t, acc, l₂ => by
      rw [List.cons_append, first_seen_from, first_seen_from,
        first_seen_from_append t _ l₂]

theorem rrf_fold_keys (k : ℚ) :
    ∀ (lists : List (List String)) (sc : List (String × ℚ)),
      (lists.foldl (fun scores lst => rrf_list k scores 1 lst) sc).map Prod.fst
        = first_seen_from (sc.map Prod.fst) lists.flatten
  | [], sc => by simp [first_seen_from]
  | l :: rest, sc => by
      simp only [List.foldl_cons, List.flatten_cons]
      rw [rrf_fold_keys k rest _, rrf_list_keys, first_seen_from_append]

/-- The key sequence of the fused dictionary is the first-seen ordering of
the concatenation of the input lists. -/
theorem rrf_fuse_keys (lists : List (List String)) (k : ℚ) :
    (rrf_fuse lists k).map Prod.fst = first_seen lists.flatten := by
  rw [rrf_fuse, rrf_fold_keys]
  rfl

/-- C2: the fused ordering is deterministic, descending by score with
ties in first-seen order: the sorted entry sequence is pairwise descending;
for every score value, its entries appear exactly in fused-dictionary order
(stability of the sort); and the fused dictionary lists ids in first-seen
order of the concatenation of all ranked lists — so equal-score ids appear
in first-seen order, never in arbitrary map-iteration order. The embedding
is a pure function of (ranked lists, k), so identical inputs always yield
the identical output order. -/
theorem fused_order_deterministic (lists : List (List String)) :
    (sort_desc (rrf_fuse lists RRF_K)).Pairwise (fun a b => b.2 ≤ a.2)
    ∧ (∀ s : ℚ, (sort_desc (rrf_fuse lists RRF_K)).filter (fun q => q.2 = s)
        = (rrf_fuse lists RRF_K).filter (fun q => q.2 = s))
    ∧ (rrf_fuse lists RRF_K).map Prod.fst = first_seen lists.flatten :=
  ⟨sort_desc_pairwise _, fun s => sort_desc_filter s _, rrf_fuse_keys lists RRF_K⟩

/-- C9 (amended): the fused score map is insensitive to the order of the
input lists — permuting the collection of ranked lists leaves the fused
score of every id unchanged. -/
theorem rrf_scores_perm_invariant (lists₁ lists₂ : List (List String))
    (k : ℚ) (h : lists₁.Perm lists₂) (id : String) :
    dict_get (rrf_fuse lists₁ k) id = dict_get (rrf_fuse lists₂ k) id := by
  rw [rrf_fuse_score, rrf_fuse_score]
  exact (h.map (fun l => occSum k id 1 l)).sum_eq

/-- Witness for C9 at a concrete input: swapping the two lists `[A]`, `[B]`
leaves the fused score of `A` unchanged. -/
theorem rrf_scores_perm_invariant_witness :
    dict_get (rrf_fuse [["A"], ["B"]] 60) "A"
      = dict_get (rrf_fuse [["B"], ["A"]] 60) "A" :=
  rrf_scores_perm_invariant [["A"], ["B"]] [["B"], ["A"]] 60
    (List.Perm.swap ["B"] ["A"] []) "A"

/-- C9, counterexample to order-insensitivity of the final ordering: the
two collections `[[A], [B]]` and `[[B], [A]]` are permutations of each
other and give every id the same fused score (a tie at `1/61`), yet the
final sorted orders differ — ties follow first-seen order in the
concatenation, which the permutation changes. -/
theorem rrf_order_not_perm_invariant :
    (sort_desc (rrf_fuse [["A"], ["B"]] RRF_K)).map Prod.fst = ["A", "B"]
    ∧ (sort_desc (rrf_fuse [["B"], ["A"]] RRF_K)).map Prod.fst = ["B", "A"]
    ∧ [["A"], ["B"]].Perm [["B"], ["A"]]
    ∧ (sort_desc (rrf_fuse [["A"], ["B"]] RRF_K)).map Prod.fst
        ≠ (sort_desc (rrf_fuse [["B"], ["A"]] RRF_K)).map Prod.fst := by
  refine ⟨?_, ?_, List.Perm.swap _ _ _, ?_⟩ <;>
    norm_num +decide [RRF_K, rrf_fuse, rrf_list, dict_set, dict_get,
      sort_desc, insert_desc]

-- ----- query-expansion lemmas -----

theorem rewrites_head (client : OpenAIClient) (query : String) (n : Nat)
    (hyde : Bool) (res : List String)
    (h : generate_rewrites_openai client query n hyde = .ok res) :
    res.head? = some query := by
  unfold generate_rewrites_openai at h
  cases hp : client.paraphrase_response query n with
  | error e =>
      rw [hp] at h
      simp only [Bind.bind, Except.bind] at h
      exact absurd h (by simp)
  | ok content =>
      rw [hp] at h
      simp only [Bind.bind, Except.bind] at h
      cases hyde with
      | false =>
          simp only [Bool.false_eq_true, if_false, pure, Except.pure,
            Except.ok.injEq] at h
          rw [← h]
          rfl
      | true =>
          simp only [if_true, Functor.map, Except.map] at h
          cases hh : client.hyde_response query with
          | error e =>
              rw [hh] at h
              exact absurd h (by simp)
          | ok htext =>
              rw [hh] at h
              simp only [pure, Except.pure, Except.ok.injEq] at h
              rw [← h]
              rfl

/-- C4: query expansion never fails the session: whenever the generative
backend raises, `retrieve_docs` swallows the exception and the variant set
is exactly the single-element original-only list; and in every case —
success or failure — the variant list used has the original query as its
first element. -/
theorem expansion_never_fails (env : Env) (query : String) :
    (queries_used env query).head? = some query
    ∧ (∀ e, generate_rewrites_openai env.client query N_REWRITES USE_HYDE
          = .error e → queries_used env query = [query]) := by
  constructor
  · unfold queries_used
    cases hg : generate_rewrites_openai env.client query N_REWRITES USE_HYDE with
    | error e => simp [USE_MULTI_QUERY]
    | ok qs => simpa [USE_MULTI_QUERY] using
        rewrites_head env.client query N_REWRITES USE_HYDE qs hg
  · intro e he
    unfold queries_used
    rw [he]
    simp [USE_MULTI_QUERY]

-- ----- dense-adapter theorems -----

def docA : Document := ⟨some "dA", some "s", "a"⟩
def docB : Document := ⟨some "dB", some "s", "b"⟩

/-- A dense backend whose scored search succeeds but returns its pairs in
ascending score order (not descending). -/
def vs_unsorted : VectorStore :=
  ⟨fun _ _ => .ok [(docA, 1), (docB, 5)], fun _ _ => .ok []⟩

/-- C6, counterexample: when the backend returns unsorted results,
`_dense_search` returns them unchanged — the returned pair list is not in
descending score order, so the adapter does not sort. -/
theorem dense_search_unsorted_counterexample :
    dense_search vs_unsorted "q" 2 = .ok [(docA, 1), (docB, 5)]
    ∧ ¬ ([(docA, (1 : ℚ)), (docB, 5)].Pairwise (fun a b => b.2 ≤ a.2)) := by
  constructor
  · rfl
  · intro h
    have h5 : (5 : ℚ) ≤ 1 := by
      simpa using (List.pairwise_cons.mp h).1 (docB, 5) (by simp)
    norm_num at h5

/-- C6 (amended): `_dense_search` performs no sorting at all: a successful
scored search is passed through unchanged; when the scored search raises,
the documents of the plain search are returned in backend order with score
`0.0`; when both raise, the error propagates. -/
theorem dense_search_passthrough (vs : VectorStore) (q : String) (k : Nat) :
    (∀ r, vs.similarity_search_with_score q k = .ok r →
        dense_search vs q k = .ok r)
    ∧ (∀ e docs, vs.similarity_search_with_score q k = .error e →
        vs.similarity_search q k = .ok docs →
        dense_search vs q k = .ok (docs.map (fun d => (d, 0))))
    ∧ (∀ e e2, vs.similarity_search_with_score q k = .error e →
        vs.similarity_search q k = .error e2 →
        dense_search vs q k = .error e2) := by
  refine ⟨?_, ?_, ?_⟩
  · intro r h
    unfold dense_search
    rw [h]
  · intro e docs h h2
    unfold dense_search
    rw [h, h2]
  · intro e e2 h h2
    unfold dense_search
    rw [h, h2]

-- ----- document-id derivation (C5) -----

/-- C5: the id derived for a document without a backend-native `doc_id`
goes through the per-process, seed-dependent Python `hash`: two process runs
whose hash instances differ on the content derive different ids for the
very same `(source, content)`, so the derivation is not stable across
process restarts. -/
theorem doc_key_depends_on_hash_seed :
    doc_key (fun _ => 0) ⟨none, some "s", "content"⟩
      ≠ doc_key (fun _ => 1) ⟨none, some "s", "content"⟩
    ∧ doc_key (fun _ => 0) ⟨none, some "s", "content"⟩ = "s-0"
    ∧ doc_key (fun _ => 1) ⟨none, some "s", "content"⟩ = "s-1" := by
  refine ⟨?_, rfl, rfl⟩
  decide

-- ----- fan-out error-propagation lemmas -----

theorem fanout_step_ok (env : Env) (vs : VectorStore) (bm25_dir : PyVal)
    (acc : Bank × List (List String)) (q : String) (hits : List (Document × ℚ))
    (h : dense_search vs q DENSE_TOP_K = .ok hits) :
    ∃ s, fanout_step env vs bm25_dir acc q = .ok s := by
  unfold fanout_step
  rw [h]
  simp only [Bind.bind, Except.bind]
  by_cases hb : (env.hasBM25 && env.isdir bm25_dir) = true
  · rw [if_pos hb]
    cases hl : env.search_bm25 q bm25_dir BM25_TOP_K with
    | ok lex_hits => exact ⟨_, rfl⟩
    | error e => exact ⟨_, rfl⟩
  · rw [if_neg hb]
    exact ⟨_, rfl⟩

theorem fanout_step_error (env : Env) (vs : VectorStore) (bm25_dir : PyVal)
    (acc : Bank × List (List String)) (q : String)
    (h : dense_search vs q DENSE_TOP_K = .error ()) :
    fanout_step env vs bm25_dir acc q = .error () := by
  unfold fanout_step
  rw [h]
  rfl

theorem fanout_go_error (env : Env) (vs : VectorStore) (bm25_dir : PyVal) :
    ∀ (queries : List String) (acc : Bank × List (List String)) (q : String),
      q ∈ queries → dense_search vs q DENSE_TOP_K = .error () →
      fanout_go env vs bm25_dir acc queries = .error ()
  | [], acc, q, hq, _ => by simp at hq
  | q0 :: rest, acc, q, hq, hfail => by
      rw [fanout_go]
      cases hd : dense_search vs q0 DENSE_TOP_K with
      | error e =>
          cases e
          rw [fanout_step_error env vs bm25_dir acc q0 hd]
          rfl
      | ok hits =>
          rcases fanout_step_ok env vs bm25_dir acc q0 hits hd with ⟨s, hs⟩
          rw [hs]
          have hq2 : q ∈ rest := by
            rcases List.mem_cons.mp hq with rfl | hmem
            · rw [hfail] at hd
              exact absurd hd (by simp)
            · exact hmem
          simpa [Bind.bind, Except.bind] using
            fanout_go_error env vs bm25_dir rest s q hq2 hfail

/-- C3 (amended): a dense-backend failure on any query variant that the
fan-out loop processes — the original query or a rewritten one — makes the
whole `retrieve_docs` call fail: the dense call is not wrapped in any
try/except, so the exception propagates to the caller; only lexical (BM25)
failures are skipped. -/
theorem dense_failure_fatal (env : Env) (query persist_path : String)
    (bm25_dir : PyVal) (k : Nat) (q : String)
    (hq : q ∈ queries_used env query)
    (hfail : dense_search (env.loadVS persist_path) q DENSE_TOP_K = .error ()) :
    retrieve_docs env query persist_path bm25_dir k = .error () := by
  simp only [retrieve_docs, fanout]
  rw [fanout_go_error env (env.loadVS persist_path) bm25_dir
    (queries_used env query) ([], []) q hq hfail]
  rfl

-- the concrete scenario refuting the claim: dense succeeds on the original
-- query and fails on the generated variant, and the session still dies

/-- Dense backend that fails (both entry points) exactly on the query text
`"variant"`. -/
def vs_c3 : VectorStore :=
  ⟨fun q _ => if q = "variant" then .error () else .ok [(docA, 1)],
   fun q _ => if q = "variant" then .error () else .ok [docA]⟩

/-- Expander backend returning no paraphrase lines and the HyDE text
`"variant"`. -/
def client_c3 : OpenAIClient := ⟨fun _ _ => .ok "", fun _ => .ok "variant"⟩

def env_c3 : Env :=
  ⟨fun _ => vs_c3, client_c3, false, fun _ => false, fun _ _ _ => .error (),
   fun _ => 0⟩

/-- C3, counterexample: the variant set is `["orig", "variant"]`, the dense
backend succeeds on the original query and fails only on the non-original
variant `"variant"`, yet `retrieve_docs` returns a hard error instead of
skipping that call and continuing. -/
theorem dense_variant_failure_counterexample :
    queries_used env_c3 "orig" = ["orig", "variant"]
    ∧ dense_search (env_c3.loadVS "p") "orig" DENSE_TOP_K = .ok [(docA, 1)]
    ∧ dense_search (env_c3.loadVS "p") "variant" DENSE_TOP_K = .error ()
    ∧ retrieve_docs env_c3 "orig" "p" BM25_DIR 5 = .error () := by
  refine ⟨?_, ?_, ?_, ?_⟩ <;> rfl

/-- Witness for the amended C3 theorem at a concrete input: the dense
failure on the variant `"variant"` makes the whole call error. -/
theorem dense_failure_fatal_witness :
    retrieve_docs env_c3 "orig" "p" BM25_DIR 5 = .error () :=
  dense_failure_fatal env_c3 "orig" "p" BM25_DIR 5 "variant" (by decide) rfl

-- ----- bank and fan-out invariants -----

theorem bank_insert_mono :
    ∀ (b : Bank) (key : String) (d : Document) (id : String),
      (bank_find? b id).isSome → (bank_find? (bank_insert b key d) id).isSome
  | [], _, _, id, h => by simp [bank_find?] at h
  | p :: t, key, d, id, h => by
      by_cases hp : p.1 = key
      · simpa [bank_insert, hp] using h
      · by_cases hpid : p.1 = id
        · have hins : bank_insert (p :: t) key d = p :: bank_insert t key d := by
            rw [bank_insert, if_neg hp]
          rw [hins, bank_find?, if_pos hpid]
          rfl
        · rw [bank_find?, if_neg hpid] at h
          simpa [bank_insert, hp, bank_find?, hpid] using
            bank_insert_mono t key d id h

theorem bank_insert_self :
    ∀ (b : Bank) (key : String) (d : Document),
      (bank_find? (bank_insert b key d) key).isSome
  | [], key, d => by simp [bank_insert, bank_find?]
  | p :: t, key, d => by
      by_cases hp : p.1 = key
      · simp [bank_insert, hp, bank_find?]
      · simpa [bank_insert, hp, bank_find?, hp] using bank_insert_self t key d

theorem accum_go_bank_mono (pyHash : String → Int) :
    ∀ (hits : List (Document × ℚ)) (acc : Bank × List String) (id : String),
      (bank_find? acc.1 id).isSome →
      (bank_find? (accum_go pyHash acc hits).1 id).isSome
  | [], _, _, h => h
  | h0 :: t, acc, id, h => by
      rw [accum_go]
      exact accum_go_bank_mono pyHash t _ id (bank_insert_mono _ _ _ _ h)

theorem accum_go_covers (pyHash : String → Int) :
    ∀ (hits : List (Document × ℚ)) (acc : Bank × List String) (id : String),
      id ∈ (accum_go pyHash acc hits).2 →
      id ∈ acc.2 ∨ (bank_find? (accum_go pyHash acc hits).1 id).isSome
  | [], _, _, h => Or.inl h
  | h0 :: t, acc, id, h => by
      rw [accum_go] at h ⊢
      rcases accum_go_covers pyHash t _ id h with hmem | hsome
      · rcases List.mem_append.mp hmem with hmem2 | hmem2
        · exact Or.inl hmem2
        · have hid : id = doc_key pyHash h0.1 := by simpa using hmem2
          subst hid
          exact Or.inr
            (accum_go_bank_mono pyHash t _ _ (bank_insert_self _ _ _))
      · exact Or.inr hsome

theorem accum_hits_mono (pyHash : String → Int) (bank : Bank)
    (hits : List (Document × ℚ)) (id : String)
    (h : (bank_find? bank id).isSome) :
    (bank_find? (accum_hits pyHash bank hits).1 id).isSome :=
  accum_go_bank_mono pyHash hits (bank, []) id h

theorem accum_hits_covers (pyHash : String → Int) (bank : Bank)
    (hits : List (Document × ℚ)) (id : String)
    (h : id ∈ (accum_hits pyHash bank hits).2) :
    (bank_find? (accum_hits pyHash bank hits).1 id).isSome := by
  rcases accum_go_covers pyHash hits (bank, []) id h with h2 | h2
  · simp at h2
  · exact h2

theorem fanout_step_inv (env : Env) (vs : VectorStore) (bm25_dir : PyVal)
    (acc : Bank × List (List String)) (q : String)
    (s : Bank × List (List String))
    (h : fanout_step env vs bm25_dir acc q = .ok s)
    (hinv : ∀ id ∈ acc.2.flatten, (bank_find? acc.1 id).isSome) :
    (∀ id ∈ s.2.flatten, (bank_find? s.1 id).isSome)
    ∧ ∃ ext, ext ≠ [] ∧ s.2 = acc.2 ++ ext := by
  unfold fanout_step at h
  cases hd : dense_search vs q DENSE_TOP_K with
  | error e =>
      rw [hd] at h
      exact absurd h (by simp [Bind.bind, Except.bind])
  | ok hits =>
      rw [hd] at h
      simp only [Bind.bind, Except.bind] at h
      by_cases hb : (env.hasBM25 && env.isdir bm25_dir) = true
      · rw [if_pos hb] at h
        cases hl : env.search_bm25 q bm25_dir BM25_TOP_K with
        | ok lex_hits =>
            rw [hl] at h
            simp only [pure, Except.pure, Except.ok.injEq] at h
            rw [← h]
            refine ⟨?_, [(accum_hits env.pyHash acc.1 hits).2,
              (accum_hits env.pyHash
                (accum_hits env.pyHash acc.1 hits).1 lex_hits).2], by simp, by simp⟩
            intro id hid
            simp only [List.append_assoc, List.flatten_append, List.flatten_cons,
              List.flatten_nil, List.append_nil, List.mem_append] at hid
            rcases hid with hid | hid | hid
            · exact accum_hits_mono _ _ _ _
                (accum_hits_mono _ _ _ _ (hinv id hid))
            · exact accum_hits_mono _ _ _ _ (accum_hits_covers _ _ _ _ hid)
            · exact accum_hits_covers _ _ _ _ hid
        | error e =>
            rw [hl] at h
            simp only [pure, Except.pure, Except.ok.injEq] at h
            rw [← h]
            refine ⟨?_, [(accum_hits env.pyHash acc.1 hits).2], by simp, rfl⟩
            intro id hid
            simp only [List.flatten_append, List.flatten_cons, List.flatten_nil,
              List.append_nil, List.mem_append] at hid
            rcases hid with hid | hid
            · exact accum_hits_mono _ _ _ _ (hinv id hid)
            · exact accum_hits_covers _ _ _ _ hid
      · rw [if_neg hb] at h
        simp only [pure, Except.pure, Except.ok.injEq] at h
        rw [← h]
        refine ⟨?_, [(accum_hits env.pyHash acc.1 hits).2], by simp, rfl⟩
        intro id hid
        simp only [List.flatten_append, List.flatten_cons, List.flatten_nil,
          List.append_nil, List.mem_append] at hid
        rcases hid with hid | hid
        · exact accum_hits_mono _ _ _ _ (hinv id hid)
        · exact accum_hits_covers _ _ _ _ hid

theorem fanout_go_inv (env : Env) (vs : VectorStore) (bm25_dir : PyVal) :
    ∀ (queries : List String) (acc br : Bank × List (List String)),
      fanout_go env vs bm25_dir acc queries = .ok br →
      (∀ id ∈ acc.2.flatten, (bank_find? acc.1 id).isSome) →
      (∀ id ∈ br.2.flatten, (bank_find? br.1 id).isSome)
      ∧ ∃ ext, br.2 = acc.2 ++ ext ∧ (queries ≠ [] → ext ≠ [])
  | [], acc, br, h, hinv => by
      rw [fanout_go] at h
      simp only [Except.ok.injEq] at h
      rw [← h]
      exact ⟨hinv, [], by simp, fun hq => absurd rfl hq⟩
  | q :: rest, acc, br, h, hinv => by
      rw [fanout_go] at h
      cases hs : fanout_step env vs bm25_dir acc q with
      | error e =>
          rw [hs] at h
          exact absurd h (by simp [Bind.bind, Except.bind])
      | ok s =>
          rw [hs] at h
          simp only [Bind.bind, Except.bind] at h
          rcases fanout_step_inv env vs bm25_dir acc q s hs hinv with
            ⟨hinv2, ext1, hne1, hext1⟩
          rcases fanout_go_inv env vs bm25_dir rest s br h hinv2 with ⟨hinv3, ext2, hext2, _⟩
          refine ⟨hinv3, ext1 ++ ext2, ?_, fun _ hcontra => ?_⟩
          · rw [hext2, hext1, List.append_assoc]
          · exact hne1 (List.append_eq_nil.mp hcontra).1

-- ----- assembly lemmas -----

theorem bank_lookups_ok :
    ∀ (ids : List String) (bank : Bank),
      (∀ i ∈ ids, (bank_find? bank i).isSome) →
      ∃ docs, bank_lookups bank ids = .ok docs ∧ docs.length = ids.length
  | [], bank, _ => ⟨[], rfl, rfl⟩
  | i :: rest, bank, h => by
      rcases Option.isSome_iff_exists.mp (h i (List.mem_cons_self i rest)) with ⟨d, hd⟩
      rcases bank_lookups_ok rest bank (fun j hj => h j (List.mem_cons_of_mem i hj))
        with ⟨ds, hds, hlen⟩
      refine ⟨d :: ds, ?_, by simp [hlen]⟩
      rw [bank_lookups, hd]
      simp only [Bind.bind, Except.bind, hds]
      rfl

theorem first_seen_from_nodup :
    ∀ (l acc : List String), acc.Nodup → (first_seen_from acc l).Nodup
  | [], _, h => h
  | x :: t, acc, h => by
      rw [first_seen_from]
      by_cases hx : x ∈ acc
      · rw [if_pos hx]
        exact first_seen_from_nodup t acc h
      · rw [if_neg hx]
        exact first_seen_from_nodup t _ (by simp [List.nodup_append, h, hx])

theorem first_seen_from_sub :
    ∀ (l acc : List String) (x : String),
      x ∈ first_seen_from acc l → x ∈ acc ∨ x ∈ l
  | [], _, _, h => Or.inl h
  | y :: t, acc, x, h => by
      rw [first_seen_from] at h
      by_cases hy : y ∈ acc
      · rw [if_pos hy] at h
        rcases first_seen_from_sub t acc x h with h2 | h2
        · exact Or.inl h2
        · exact Or.inr (List.mem_cons_of_mem y h2)
      · rw [if_neg hy] at h
        rcases first_seen_from_sub t _ x h with h2 | h2
        · rcases List.mem_append.mp h2 with h3 | h3
          · exact Or.inl h3
          · have hx : x = y := by simpa using h3
            exact Or.inr (hx ▸ List.mem_cons_self y t)
        · exact Or.inr (List.mem_cons_of_mem y h2)

/-- The id prefix handed to the bank during assembly has no duplicates. -/
theorem top_ids_nodup (lists : List (List String)) (k : Nat) :
    (((sort_desc (rrf_fuse lists RRF_K)).map Prod.fst).take (max k 30)).Nodup := by
  have hnd : ((rrf_fuse lists RRF_K).map Prod.fst).Nodup := by
    rw [rrf_fuse_keys]
    exact first_seen_from_nodup _ [] List.nodup_nil
  have hperm : ((sort_desc (rrf_fuse lists RRF_K)).map Prod.fst).Perm
      ((rrf_fuse lists RRF_K).map Prod.fst) := (sort_desc_perm _).map Prod.fst
  exact (hperm.nodup_iff.mpr hnd).sublist (List.take_sublist _ _)

theorem top_ids_sub (lists : List (List String)) (k : Nat) (i : String)
    (h : i ∈ ((sort_desc (rrf_fuse lists RRF_K)).map Prod.fst).take (max k 30)) :
    i ∈ lists.flatten := by
  have h2 : i ∈ (sort_desc (rrf_fuse lists RRF_K)).map Prod.fst :=
    List.mem_of_mem_take h
  have h3 : i ∈ (rrf_fuse lists RRF_K).map Prod.fst :=
    ((sort_desc_perm _).map Prod.fst).mem_iff.mp h2
  rw [rrf_fuse_keys] at h3
  rcases first_seen_from_sub _ [] i h3 with h4 | h4
  · simp at h4
  · exact h4

theorem assemble_ok_length (vs : VectorStore) (query : String) (k : Nat)
    (bank : Bank) (lists : List (List String)) (docs : List Document)
    (h : assemble vs query k bank lists = .ok docs) : docs.length ≤ k := by
  unfold assemble at h
  by_cases he : lists.isEmpty
  · rw [if_pos he] at h
    cases hd : dense_search vs query DENSE_TOP_K with
    | error e =>
        rw [hd] at h
        exact absurd h (by simp [Bind.bind, Except.bind])
    | ok hits =>
        rw [hd] at h
        simp only [Bind.bind, Except.bind, pure, Except.pure, Except.ok.injEq] at h
        rw [← h]
        simp [List.length_take]
  · rw [if_neg he] at h
    simp only [fusion_assemble] at h
    cases hl : bank_lookups bank
        (((sort_desc (rrf_fuse lists RRF_K)).map Prod.fst).take (max k 30)) with
    | error e =>
        rw [hl] at h
        exact absurd h (by simp [Bind.bind, Except.bind])
    | ok ds =>
        rw [hl] at h
        simp only [Bind.bind, Except.bind, pure, Except.pure, Except.ok.injEq] at h
        rw [← h]
        simp [List.length_take]

theorem retrieve_docs_ok_length (env : Env) (query persist_path : String)
    (bm25_dir : PyVal) (k : Nat) (docs : List Document)
    (h : retrieve_docs env query persist_path bm25_dir k = .ok docs) :
    docs.length ≤ k := by
  simp only [retrieve_docs] at h
  cases hf : fanout env (env.loadVS persist_path) bm25_dir (queries_used env query) with
  | error e =>
      rw [hf] at h
      exact absurd h (by simp [Bind.bind, Except.bind])
  | ok br =>
      rw [hf] at h
      simp only [Bind.bind, Except.bind] at h
      exact assemble_ok_length _ _ _ _ _ _ h

/-- C7: the dense-only fallback triggers exactly when zero ranked lists
accumulated: with an empty collection, assembly performs one additional
dense call on the original query and returns its top-`k` documents
directly, bypassing fusion; with a nonempty collection it runs the fusion
path (which makes no dense call); `retrieve_docs` is exactly fan-out
followed by this assembly; and a completed fan-out over a nonempty variant
set always yields at least one ranked list, so the fallback triggers in no
other situation. -/
theorem fallback_iff_no_ranked_lists (vs : VectorStore) (query : String)
    (k : Nat) (bank : Bank) (lists : List (List String)) :
    (assemble vs query k bank []
        = (dense_search vs query DENSE_TOP_K).bind
            (fun hits => .ok ((hits.take k).map Prod.fst)))
    ∧ (lists ≠ [] → assemble vs query k bank lists = fusion_assemble bank lists k)
    ∧ (∀ (env : Env) (persist_path : String) (bm25_dir : PyVal),
        retrieve_docs env query persist_path bm25_dir k
          = (fanout env (env.loadVS persist_path) bm25_dir
              (queries_used env query)).bind
              (fun br => assemble (env.loadVS persist_path) query k br.1 br.2))
    ∧ (∀ (env : Env) (bm25_dir : PyVal) (queries : List String)
        (br : Bank × List (List String)), queries ≠ [] →
        fanout env vs bm25_dir queries = .ok br → br.2 ≠ []) := by
  refine ⟨rfl, ?_, fun _ _ _ => rfl, ?_⟩
  · intro hne
    unfold assemble
    rw [if_neg (by simp [List.isEmpty_iff, hne])]
  · intro env bm25_dir queries br hq hok
    rcases fanout_go_inv env vs bm25_dir queries ([], []) br hok (by simp)
      with ⟨_, ext, hext, hne⟩
    rw [hext]
    simpa using hne hq

/-- C8: fan-out puts every id of every accumulated ranked list into the
Document Bank, so on the fusion path the bank read-back during assembly
never fails and returns at most `k` documents; the id prefix assembly
looks up has no duplicate ids; and every successful `retrieve_docs` call
returns at most the requested `k` documents. -/
theorem assembly_invariants :
    (∀ (env : Env) (vs : VectorStore) (bm25_dir : PyVal)
        (queries : List String) (br : Bank × List (List String)),
        fanout env vs bm25_dir queries = .ok br →
        ∀ id ∈ br.2.flatten, (bank_find? br.1 id).isSome)
    ∧ (∀ (bank : Bank) (lists : List (List String)) (k : Nat),
        (∀ id ∈ lists.flatten, (bank_find? bank id).isSome) →
        ∃ docs, fusion_assemble bank lists k = .ok docs ∧ docs.length ≤ k)
    ∧ (∀ (lists : List (List String)) (k : Nat),
        (((sort_desc (rrf_fuse lists RRF_K)).map Prod.fst).take (max k 30)).Nodup)
    ∧ (∀ (env : Env) (query persist_path : String) (bm25_dir : PyVal)
        (k : Nat) (docs : List Document),
        retrieve_docs env query persist_path bm25_dir k = .ok docs →
        docs.length ≤ k) := by
  refine ⟨?_, ?_, fun lists k => top_ids_nodup lists k,
    fun env query persist_path bm25_dir k docs h =>
      retrieve_docs_ok_length env query persist_path bm25_dir k docs h⟩
  · intro env vs bm25_dir queries br h
    exact (fanout_go_inv env vs bm25_dir queries ([], []) br h (by simp)).1
  · intro bank lists k hcov
    have hids : ∀ i ∈ ((sort_desc (rrf_fuse lists RRF_K)).map Prod.fst).take
        (max k 30), (bank_find? bank i).isSome :=
      fun i hi => hcov i (top_ids_sub lists k i hi)
    rcases bank_lookups_ok _ bank hids with ⟨ds, hds, _⟩
    refine ⟨ds.take k, ?_, by simp [List.length_take]⟩
    simp only [fusion_assemble, Bind.bind, Except.bind, hds]
    rfl

/-- C10: `generate_answer` calls `retrieve_docs(query, persist_path, k)`,
binding its `k` positionally to the third parameter `bm25_dir`, so the
final-count parameter stays at its default `FINAL_TOP_K = 5` and the
lexical-index directory argument is the integer `k` of the caller; whatever
`k` the caller asks for, at most 5 documents come back. -/
theorem generate_answer_k_misbound (env : Env) (query persist_path : String)
    (k : Int) :
    generate_answer_retrieve env query persist_path k
      = retrieve_docs env query persist_path (PyVal.int k) FINAL_TOP_K
    ∧ FINAL_TOP_K = 5
    ∧ (∀ docs, generate_answer_retrieve env query persist_path k = .ok docs →
        docs.length ≤ 5) := by
  refine ⟨rfl, rfl, fun docs h => ?_⟩
  simpa [FINAL_TOP_K] using
    retrieve_docs_ok_length env query persist_path (PyVal.int k) FINAL_TOP_K docs h

end RagApp
